import Mathlib

/-!
# Device presence reconciliation of `cmd/k8s-device-plugin/main.go`

A shallow embedding of the scanner goroutine of `main`, of `Lister.Discover`,
`Lister.NewPlugin`, `Plugin.ListAndWatch` and `Plugin.Allocate`.

Modelling conventions.

* A Go `map[string]V` is an association list `List (String × V)`.  The order of
  the list is the order in which `range` visits the map, which Go leaves
  unspecified; every theorem below quantifies over the list, hence over every
  iteration order.  Keys of a Go map are unique: `PluginsWF` / `Nodup` of the
  keys records that where it is needed, and the operations preserve it.
* A channel value made by `make(chan []string)` is identified by the number of
  channels made before it (`Lister.chanCount` is that allocation counter; it is
  the only field of the model with no counterpart in the Go struct).
* A completed channel send is recorded as an `Event` in a trace, in program
  order.  Scheduling (who receives, when a send unblocks) is not modelled.
* `&car` in `Allocate` is a pointer: the response holds addresses into an
  explicit store of `ContainerAllocateResponse` cells.
-/

namespace DevicePlugin

/-! ## Data model -/

/-- The Go struct `currentDevices`: one snapshot entry. -/
structure currentDevices where
  pluginName : String
  devices : List String
deriving DecidableEq, Repr

/-- The Go struct `PluginDeviceConfig`. -/
structure PluginDeviceConfig where
  HostPaths : List String
  ContainerPath : String
deriving DecidableEq, Repr

/-- The Go struct `Plugin`; `Heartbeat` is the identity of its channel. -/
structure Plugin where
  Device : PluginDeviceConfig
  Heartbeat : Nat
deriving DecidableEq, Repr

/-- The Go struct `Lister`: `Config` is `Config.Devices`, `Plugins` the live
actors.  `chanCount` counts the channels made so far by `make(chan []string)`.
The channels `ResUpdateChan` and `Heartbeat` only carry the snapshot and the
timer tick and are not part of the state. -/
structure Lister where
  Config : List (String × PluginDeviceConfig)
  Plugins : List (String × Plugin)
  chanCount : Nat
deriving DecidableEq, Repr

/-- What one iteration of `Lister.Discover` does that is visible outside it, in
program order. -/
inductive Event where
  /-- A send `p.Heartbeat <- beat` on the channel `ch`. -/
  | push (ch : Nat) (beat : List String)
  /-- The statement `delete(l.Plugins, k)`. -/
  | delete (k : String)
  /-- A send `pluginListCh <- newResources`. -/
  | batch (names : List String)
deriving DecidableEq, Repr

/-! ## Go map primitives -/

/-- The Go statement `delete(m, k)`. -/
def mapDelete {V : Type} (m : List (String × V)) (k : String) : List (String × V) :=
  m.filter (fun kv => !(kv.1 == k))

/-- The Go statement `m[k] = v`: the old binding of `k`, if any, is replaced. -/
def mapSet {V : Type} (m : List (String × V)) (k : String) (v : V) : List (String × V) :=
  mapDelete m k ++ [(k, v)]

/-- Go's `slices.ContainsFunc`. -/
def ContainsFunc {A : Type} (s : List A) (f : A → Bool) : Bool :=
  s.any f

/-! ## `Lister.NewPlugin` -/

/-- The zero value of `PluginDeviceConfig`, what indexing a Go map at a missing
key gives. -/
def PluginDeviceConfig.zero : PluginDeviceConfig := ⟨[], ""⟩

/-- `Lister.NewPlugin` (main.go:218-227): builds the plugin from
`l.Config.Devices[resourceLastName]` and a channel made on the spot, stores it
under `l.Plugins[resourceLastName]` and returns it. -/
def NewPlugin (l : Lister) (resourceLastName : String) : Lister × Plugin :=
  let plugin : Plugin :=
    { Device := (l.Config.lookup resourceLastName).getD PluginDeviceConfig.zero
      Heartbeat := l.chanCount }
  ({ l with Plugins := mapSet l.Plugins resourceLastName plugin
            chanCount := l.chanCount + 1 }, plugin)

/-! ## One iteration of `Lister.Discover` -/

/-- Body of the first loop of `Discover` (main.go:188-194) for one snapshot
entry; the accumulator is the trace so far and `newResources`. -/
def discoverEntry (plugins : List (String × Plugin))
    (acc : List Event × List String) (resource : currentDevices) :
    List Event × List String :=
  match plugins.lookup resource.pluginName with
  | some val => (acc.1 ++ [Event.push val.Heartbeat resource.devices], acc.2)
  | none => (acc.1, acc.2 ++ [resource.pluginName])

/-- Body of the second loop of `Discover` (main.go:196-202) for one entry
`(k, p)` of `l.Plugins`; the accumulator is the map and the trace so far. -/
def removeEntry (newResourcesList : List currentDevices)
    (acc : List (String × Plugin) × List Event) (kp : String × Plugin) :
    List (String × Plugin) × List Event :=
  if !(ContainsFunc newResourcesList (fun resource => resource.pluginName == kp.1)) then
    (mapDelete acc.1 kp.1, acc.2 ++ [Event.push kp.2.Heartbeat [], Event.delete kp.1])
  else acc

/-- The `case newResourcesList := <-l.ResUpdateChan` arm of `Discover`
(main.go:186-207): the state after it and the trace of what it did. -/
def DiscoverStep (l : Lister) (newResourcesList : List currentDevices) :
    Lister × List Event :=
  let first := newResourcesList.foldl (discoverEntry l.Plugins) ([], [])
  let newResources := first.2
  let second := l.Plugins.foldl (removeEntry newResourcesList) (l.Plugins, first.1)
  let trace := if newResources.length > 0 then second.2 ++ [Event.batch newResources]
               else second.2
  ({ l with Plugins := second.1 }, trace)

/-! ## Reading a trace -/

/-- The updates sent on channel `ch`, in order. -/
def pushesTo (ch : Nat) (trace : List Event) : List (List String) :=
  trace.filterMap (fun e => match e with
    | Event.push c beat => if c = ch then some beat else none
    | _ => none)

/-- The discovery batches sent on `pluginListCh`, in order. -/
def batches (trace : List Event) : List (List String) :=
  trace.filterMap (fun e => match e with
    | Event.batch names => some names
    | _ => none)

/-- Whether the event is a discovery batch. -/
def Event.isBatch : Event → Bool
  | Event.batch _ => true
  | _ => false

/-- Whether the snapshot has an entry for the class `k`: the test of main.go:197. -/
def present (s : List currentDevices) (k : String) : Bool :=
  ContainsFunc s (fun resource => resource.pluginName == k)

/-- The sends of the first loop of `Discover` in closed form (see
`foldl_discoverEntry`). -/
def pushEvents (plugins : List (String × Plugin)) (s : List currentDevices) : List Event :=
  s.filterMap (fun r => (plugins.lookup r.pluginName).map
    (fun val => Event.push val.Heartbeat r.devices))

/-- The sends and deletions of the second loop of `Discover` in closed form (see
`foldl_removeEntry`). -/
def removeEvents (plugins : List (String × Plugin)) (s : List currentDevices) : List Event :=
  (plugins.filter (fun kp => !(present s kp.1))).flatMap
    (fun kp => [Event.push kp.2.Heartbeat [], Event.delete kp.1])

/-- The class names of the snapshot entries that have no live actor, in snapshot
order. -/
def newNames (plugins : List (String × Plugin)) (s : List currentDevices) : List String :=
  (s.filter (fun r => (plugins.lookup r.pluginName).isNone)).map (fun r => r.pluginName)

/-- The class names of a snapshot, in order. -/
def snapshotNames (s : List currentDevices) : List String :=
  s.map (fun r => r.pluginName)

/-- The invariant of the live set: keys are unique (it is a Go map), no two live
actors share a channel, and every live channel was made by `make`. -/
def PluginsWF (l : Lister) : Prop :=
  (l.Plugins.map (fun kp => kp.1)).Nodup ∧
  (l.Plugins.map (fun kp => kp.2.Heartbeat)).Nodup ∧
  ∀ kp ∈ l.Plugins, kp.2.Heartbeat < l.chanCount

instance (l : Lister) : Decidable (PluginsWF l) := by
  unfold PluginsWF; exact inferInstance

/-- The lister built by `main` (main.go:270-275) for a loaded configuration. -/
def initLister (config : List (String × PluginDeviceConfig)) : Lister :=
  { Config := config, Plugins := [], chanCount := 0 }

/-- The states of the lister the program can be in: the one `main` builds, and
those that calls of `NewPlugin` and iterations of `Discover` lead to. -/
inductive Reachable (config : List (String × PluginDeviceConfig)) : Lister → Prop where
  | init : Reachable config (initLister config)
  | newPlugin (l : Lister) (name : String) :
      Reachable config l → Reachable config (NewPlugin l name).1
  | discover (l : Lister) (s : List currentDevices) :
      Reachable config l → Reachable config (DiscoverStep l s).1

/-- The configuration of the scenario of the specification: the class `thermo`
with two candidate host paths. -/
def thermoConfig : List (String × PluginDeviceConfig) :=
  [("thermo", { HostPaths := ["/dev/a", "/dev/b"], ContainerPath := "/dev/thermo" })]

/-- The lister of `thermoConfig` before any actor exists. -/
def thermoIdle : Lister := initLister thermoConfig

/-- The lister of `thermoConfig` once `NewPlugin("thermo")` has run. -/
def thermoLive : Lister := (NewPlugin thermoIdle "thermo").1

/-- The snapshot in which `/dev/a` exists and `/dev/b` does not. -/
def thermoSnapshot : List currentDevices :=
  [{ pluginName := "thermo", devices := ["/dev/a"] }]

/-! ## `Plugin.ListAndWatch` -/

/-- The `pluginapi.Device` fields the relay sets. -/
structure Device where
  ID : String
  Health : String
deriving DecidableEq, Repr

/-- The constant `pluginapi.Healthy`. -/
def Healthy : String := "Healthy"

/-- The message `pluginapi.ListAndWatchResponse`. -/
structure ListAndWatchResponse where
  Devices : List Device
deriving DecidableEq, Repr

/-- How one pass through the body of a `for` loop ends: with the next pass
(`continue`, or falling off the end of the body) or with `return err`. -/
inductive LoopCtl where
  | next
  | ret (err : Option String)
deriving DecidableEq, Repr

/-- One pass through the loop of `ListAndWatch` (main.go:102-121) on the update
`beat` received from `p.Heartbeat`: the response given to `s.Send` and how the
pass ends.  The empty update takes the `continue` of line 108; the `return nil`
after it is commented out in the source. -/
def ListAndWatchBeat (beat : List String) : ListAndWatchResponse × LoopCtl :=
  if beat.length = 0 then
    ({ Devices := [] }, LoopCtl.next)
  else
    ({ Devices := beat.map (fun device => { ID := device, Health := Healthy }) },
     LoopCtl.next)

/-- What a call of `ListAndWatch` has done once it has received `beats`. -/
structure WatchRun where
  /-- The responses handed to `s.Send`, in order. -/
  sent : List ListAndWatchResponse
  /-- The result `some err` when the call has returned `err`; `none` while the call
  is still in its loop, waiting on `p.Heartbeat`. -/
  returned : Option (Option String)
deriving DecidableEq, Repr

/-- `Plugin.ListAndWatch` run on the updates `beats` arriving on `p.Heartbeat`, in
order.  Updates arriving after a return are not received. -/
def ListAndWatch : List (List String) → WatchRun
  | [] => { sent := [], returned := none }
  | beat :: rest =>
    match ListAndWatchBeat beat with
    | (resp, LoopCtl.next) =>
      let run := ListAndWatch rest
      { sent := resp :: run.sent, returned := run.returned }
    | (resp, LoopCtl.ret err) => { sent := [resp], returned := some err }

/-! ## `Plugin.Allocate` -/

/-- The message `pluginapi.DeviceSpec`. -/
structure DeviceSpec where
  ContainerPath : String
  HostPath : String
  Permissions : String
deriving DecidableEq, Repr

/-- The message `pluginapi.ContainerAllocateRequest`. -/
structure ContainerAllocateRequest where
  DevicesIDs : List String
deriving DecidableEq, Repr

/-- The message `pluginapi.AllocateRequest`. -/
structure AllocateRequest where
  ContainerRequests : List ContainerAllocateRequest
deriving DecidableEq, Repr

/-- The message `pluginapi.ContainerAllocateResponse`.  Each element of `Devices`
is a pointer to an object made by `new(DeviceSpec)` that is written before it
is appended and never after, so it is kept by value. -/
structure ContainerAllocateResponse where
  Devices : List DeviceSpec
deriving DecidableEq, Repr

/-- The message `pluginapi.AllocateResponse`: `ContainerResponses` is a slice of
pointers, kept as addresses into the store. -/
structure AllocateResponse where
  ContainerResponses : List Nat
deriving DecidableEq, Repr

/-- The address of the variable `car` of `Allocate` (main.go:139), the only
variable of the function whose address is taken. -/
def carAddr : Nat := 0

/-- The variables `car` and `response` of `Allocate`. -/
structure AllocateFrame where
  car : ContainerAllocateResponse
  response : AllocateResponse
deriving DecidableEq, Repr

/-- What `Allocate` hands back: the response and the store its pointers point
into (cell `carAddr` holds `car`). -/
structure AllocateResult where
  response : AllocateResponse
  store : List ContainerAllocateResponse
deriving DecidableEq, Repr

/-- Body of the inner loop of `Allocate` (main.go:145-153) for one identifier. -/
def allocateDevice (p : Plugin) (car : ContainerAllocateResponse) (id : String) :
    ContainerAllocateResponse :=
  { Devices := car.Devices ++
      [{ HostPath := id, ContainerPath := p.Device.ContainerPath, Permissions := "rw" }] }

/-- Body of the outer loop of `Allocate` (main.go:142-156) for one container
request: `car` is overwritten with the empty message and filled, then `&car`
is appended to `response.ContainerResponses`. -/
def allocateRequest (p : Plugin) (frame : AllocateFrame) (req : ContainerAllocateRequest) :
    AllocateFrame :=
  let car := req.DevicesIDs.foldl (allocateDevice p) { Devices := [] }
  { car := car
    response := { ContainerResponses := frame.response.ContainerResponses ++ [carAddr] } }

/-- `Plugin.Allocate` (main.go:137-159): the result and the error (always `nil`). -/
def Allocate (p : Plugin) (r : AllocateRequest) : AllocateResult × Option String :=
  let frame := r.ContainerRequests.foldl (allocateRequest p)
    { car := { Devices := [] }, response := { ContainerResponses := [] } }
  ({ response := frame.response, store := [frame.car] }, none)

/-- The container responses a caller reads from the result: each pointer of
`ContainerResponses` dereferenced in the store. -/
def AllocateResult.read (res : AllocateResult) : List (Option ContainerAllocateResponse) :=
  res.response.ContainerResponses.map (fun a => res.store.get? a)

/-- The grant `Allocate` builds for the identifier `id`. -/
def grant (p : Plugin) (id : String) : DeviceSpec :=
  { HostPath := id, ContainerPath := p.Device.ContainerPath, Permissions := "rw" }

/-! ## The scanner goroutine of `main` -/

/-- The kinds of error `os.Stat` can fail with. -/
inductive StatError where
  | ErrNotExist
  | ErrPermission
  | ErrOther
deriving DecidableEq, Repr

/-- The test `errors.Is(err, os.ErrNotExist)` on the error of `os.Stat`
(`none` is the `nil` error). -/
def errorsIsNotExist : Option StatError → Bool
  | some StatError.ErrNotExist => true
  | _ => false

/-- Body of the inner loop of the scan (main.go:295-301) for one host path. -/
def scanPath (stat : String → Option StatError) (found : List String) (hostpath : String) :
    List String :=
  if errorsIsNotExist (stat hostpath) then found else found ++ [hostpath]

/-- Body of the outer loop of the scan (main.go:293-306) for one class. -/
def scanClass (stat : String → Option StatError) (lastNames : List currentDevices)
    (entry : String × PluginDeviceConfig) : List currentDevices :=
  let found := entry.2.HostPaths.foldl (scanPath stat) []
  if found.length > 0 then lastNames ++ [{ pluginName := entry.1, devices := found }]
  else lastNames

/-- The snapshot the scan goroutine sends on `ResUpdateChan` (main.go:292-308)
for the configuration `devices` and the filesystem `stat`. -/
def scan (stat : String → Option StatError) (devices : List (String × PluginDeviceConfig)) :
    List currentDevices :=
  devices.foldl (scanClass stat) []

/-- Whether the host path exists: `os.Stat` succeeds on it. -/
def pathExists (stat : String → Option StatError) (hostpath : String) : Bool :=
  (stat hostpath).isNone

/-- The host paths of a class that the scan keeps, in configured order: those
whose `os.Stat` does not fail with `os.ErrNotExist`. -/
def keptPaths (stat : String → Option StatError) (device : PluginDeviceConfig) : List String :=
  device.HostPaths.filter (fun hostpath => !(errorsIsNotExist (stat hostpath)))

/-- A filesystem in which `/dev/a` exists and nothing else does. -/
def statOnlyA : String → Option StatError :=
  fun hostpath => if hostpath = "/dev/a" then none else some StatError.ErrNotExist

/-- A filesystem in which `os.Stat` is denied on `/dev/a` and nothing else exists. -/
def statDeniedA : String → Option StatError :=
  fun hostpath => if hostpath = "/dev/a" then some StatError.ErrPermission
    else some StatError.ErrNotExist

/-- The plugin of the class `thermo` of the scenario. -/
def thermoPlugin : Plugin :=
  { Device := { HostPaths := ["/dev/a", "/dev/b"], ContainerPath := "/dev/thermo" }
    Heartbeat := 0 }

/-! ## The two loops of `Discover` in closed form -/

theorem foldl_discoverEntry (plugins : List (String × Plugin)) (s : List currentDevices)
    (acc : List Event × List String) :
    s.foldl (discoverEntry plugins) acc =
      (acc.1 ++ s.filterMap (fun r => (plugins.lookup r.pluginName).map
          (fun val => Event.push val.Heartbeat r.devices)),
       acc.2 ++ (s.filter (fun r => (plugins.lookup r.pluginName).isNone)).map
          (fun r => r.pluginName)) := by
  induction s generalizing acc with
  | nil => simp
  | cons r s ih =>
    rw [List.foldl_cons, ih]
    unfold discoverEntry
    cases h : plugins.lookup r.pluginName <;> simp [h, List.filterMap_cons]

theorem foldl_removeEntry (s : List currentDevices) (ps : List (String × Plugin))
    (acc : List (String × Plugin) × List Event) :
    ps.foldl (removeEntry s) acc =
      (acc.1.filter (fun kv => !(ps.any (fun kp => kp.1 == kv.1 && !(present s kp.1)))),
       acc.2 ++ (ps.filter (fun kp => !(present s kp.1))).flatMap
          (fun kp => [Event.push kp.2.Heartbeat [], Event.delete kp.1])) := by
  induction ps generalizing acc with
  | nil => simp
  | cons kp ps ih =>
    rw [List.foldl_cons, ih]
    unfold removeEntry
    by_cases h : present s kp.1
    · have h2 : ContainsFunc s (fun resource => resource.pluginName == kp.1) = true := h
      simp [h, h2]
    · have h2 : ContainsFunc s (fun resource => resource.pluginName == kp.1) = false := by
        simpa [present] using h
      simp [h, h2, mapDelete, List.filter_filter]
      refine List.filter_congr ?_
      intro a _
      by_cases hk : a.1 = kp.1
      · simp [hk]
      · have e1 : (a.1 == kp.1) = false := beq_eq_false_iff_ne.mpr hk
        have e2 : (kp.1 == a.1) = false := beq_eq_false_iff_ne.mpr (fun e => hk e.symm)
        simp only [e1, e2, Bool.and_comm]

theorem DiscoverStep_plugins (l : Lister) (s : List currentDevices) :
    (DiscoverStep l s).1.Plugins = l.Plugins.filter (fun kp => present s kp.1) := by
  simp only [DiscoverStep, foldl_removeEntry]
  refine List.filter_congr ?_
  intro a ha
  by_cases hp : present s a.1
  · rw [hp, Bool.not_eq_true', List.any_eq_false]
    intro kp _ hk
    have hka : kp.1 = a.1 := by
      by_contra hne
      simp [hne] at hk
    simp [hka, hp] at hk
  · have hpf : present s a.1 = false := by simpa using hp
    rw [hpf, Bool.not_eq_false', List.any_eq_true]
    exact ⟨a, ha, by simp [hpf]⟩

theorem DiscoverStep_trace (l : Lister) (s : List currentDevices) :
    (DiscoverStep l s).2 =
      pushEvents l.Plugins s ++ removeEvents l.Plugins s ++
        (if newNames l.Plugins s = [] then [] else [Event.batch (newNames l.Plugins s)]) := by
  simp only [DiscoverStep, foldl_removeEntry, foldl_discoverEntry, pushEvents, removeEvents,
    newNames, List.nil_append]
  by_cases h : (s.filter (fun r => (l.Plugins.lookup r.pluginName).isNone)).map
      (fun r => r.pluginName) = []
  · rw [if_pos h, h]
    simp
  · have hlen : ((s.filter (fun r => (l.Plugins.lookup r.pluginName).isNone)).map
        (fun r => r.pluginName)).length > 0 := List.length_pos.mpr h
    rw [if_neg h, if_pos hlen]

/-! ## Association lists as Go maps -/

theorem lookup_mem {V : Type} (m : List (String × V)) (k : String) (v : V)
    (h : m.lookup k = some v) : (k, v) ∈ m := by
  induction m with
  | nil => simp at h
  | cons kv m ih =>
    obtain ⟨k2, v2⟩ := kv
    by_cases hk : k = k2
    · subst hk
      simp [List.lookup_cons] at h
      simp [h]
    · have e : (k == k2) = false := beq_eq_false_iff_ne.mpr hk
      rw [List.lookup_cons, e] at h
      exact List.mem_cons_of_mem _ (ih h)

theorem lookup_of_mem {V : Type} (m : List (String × V)) (k : String) (v : V)
    (hnd : (m.map (fun kv => kv.1)).Nodup) (h : (k, v) ∈ m) : m.lookup k = some v := by
  induction m with
  | nil => simp at h
  | cons kv m ih =>
    obtain ⟨k2, v2⟩ := kv
    rw [List.map_cons, List.nodup_cons] at hnd
    rcases List.mem_cons.mp h with heq | hin
    · cases heq
      simp [List.lookup_cons]
    · have hk : k ≠ k2 := by
        intro e
        subst e
        exact hnd.1 (List.mem_map.mpr ⟨(k, v), hin, rfl⟩)
      have e : (k == k2) = false := beq_eq_false_iff_ne.mpr hk
      rw [List.lookup_cons, e]
      exact ih hnd.2 hin

theorem lookup_none_iff {V : Type} (m : List (String × V)) (k : String) :
    m.lookup k = none ↔ k ∉ m.map (fun kv => kv.1) := by
  induction m with
  | nil => simp
  | cons kv m ih =>
    obtain ⟨k2, v2⟩ := kv
    by_cases hk : k = k2
    · subst hk
      simp [List.lookup_cons]
    · have e : (k == k2) = false := beq_eq_false_iff_ne.mpr hk
      rw [List.lookup_cons, e, List.map_cons, List.mem_cons]
      simp only [hk, false_or]
      exact ih

theorem present_iff (s : List currentDevices) (k : String) :
    present s k = true ↔ k ∈ snapshotNames s := by
  simp only [present, ContainsFunc, snapshotNames, List.any_eq_true, beq_iff_eq, List.mem_map]

/-- In a well-formed live set a channel determines its entry. -/
theorem chan_inj (l : Lister) (hwf : PluginsWF l) (a b : String × Plugin)
    (ha : a ∈ l.Plugins) (hb : b ∈ l.Plugins) (h : a.2.Heartbeat = b.2.Heartbeat) : a = b :=
  List.inj_on_of_nodup_map hwf.2.1 ha hb h

/-! ## The updates one step sends on a channel -/

theorem pushesTo_append (ch : Nat) (a b : List Event) :
    pushesTo ch (a ++ b) = pushesTo ch a ++ pushesTo ch b := by
  simp [pushesTo, List.filterMap_append]

theorem pushesTo_pushEvents (ch : Nat) (plugins : List (String × Plugin))
    (s : List currentDevices) :
    pushesTo ch (pushEvents plugins s) =
      s.filterMap (fun r => (plugins.lookup r.pluginName).bind
        (fun val => if val.Heartbeat = ch then some r.devices else none)) := by
  simp only [pushesTo, pushEvents, List.filterMap_filterMap]
  refine List.filterMap_congr ?_
  intro r _
  cases plugins.lookup r.pluginName <;> simp

theorem pushesTo_removeEvents (ch : Nat) (plugins : List (String × Plugin))
    (s : List currentDevices) :
    pushesTo ch (removeEvents plugins s) =
      (plugins.filter (fun kp => !(present s kp.1) && (kp.2.Heartbeat == ch))).map
        (fun _ => []) := by
  unfold removeEvents
  induction plugins with
  | nil => simp [pushesTo]
  | cons kp ps ih =>
    by_cases hp : present s kp.1
    · simpa [List.filter_cons, hp] using ih
    · have hpf : present s kp.1 = false := by simpa using hp
      by_cases hc : kp.2.Heartbeat = ch
      · simp only [List.filter_cons, hpf, Bool.not_false, if_true, List.flatMap_cons,
          List.cons_append, List.nil_append, Bool.true_and, beq_iff_eq, hc, List.map_cons]
        simp only [pushesTo, List.filterMap_cons, if_true] at ih ⊢
        rw [ih]
      · simp only [List.filter_cons, hpf, Bool.not_false, if_true, List.flatMap_cons,
          List.cons_append, List.nil_append, Bool.true_and, beq_iff_eq, hc, if_false]
        simp only [pushesTo, List.filterMap_cons, hc, if_false] at ih ⊢
        rw [ih]

theorem pushesTo_DiscoverStep (ch : Nat) (l : Lister) (s : List currentDevices) :
    pushesTo ch (DiscoverStep l s).2 =
      s.filterMap (fun r => (l.Plugins.lookup r.pluginName).bind
        (fun val => if val.Heartbeat = ch then some r.devices else none)) ++
      (l.Plugins.filter (fun kp => !(present s kp.1) && (kp.2.Heartbeat == ch))).map
        (fun _ => []) := by
  rw [DiscoverStep_trace, pushesTo_append, pushesTo_append, pushesTo_pushEvents,
    pushesTo_removeEvents]
  by_cases h : newNames l.Plugins s = []
  · simp [h, pushesTo]
  · simp [h, pushesTo]

theorem filterMap_unique_name (s : List currentDevices) (r : currentDevices)
    (hnd : (snapshotNames s).Nodup) (hr : r ∈ s) :
    s.filterMap (fun x => if x.pluginName = r.pluginName then some x.devices else none) =
      [r.devices] := by
  induction s with
  | nil => simp at hr
  | cons x xs ih =>
    rw [snapshotNames, List.map_cons, List.nodup_cons] at hnd
    rcases List.mem_cons.mp hr with heq | hin
    · subst heq
      have htail : xs.filterMap
          (fun x => if x.pluginName = r.pluginName then some x.devices else none) = [] := by
        rw [List.filterMap_eq_nil_iff]
        intro y hy
        have hne : y.pluginName ≠ r.pluginName := by
          intro e
          exact hnd.1 (e ▸ List.mem_map.mpr ⟨y, hy, rfl⟩)
        simp [hne]
      simp [List.filterMap_cons, htail]
    · have hne : x.pluginName ≠ r.pluginName := by
        intro e
        exact hnd.1 (e ▸ List.mem_map.mpr ⟨r, hin, rfl⟩)
      simp only [List.filterMap_cons, hne, if_false]
      exact ih hnd.2 hin

theorem filter_chan_unique (l : Lister) (hwf : PluginsWF l) (a : String × Plugin)
    (ha : a ∈ l.Plugins) :
    l.Plugins.filter (fun kp => kp.2.Heartbeat == a.2.Heartbeat) = [a] := by
  have hnd := hwf.2.1
  generalize l.Plugins = ps at ha hnd
  induction ps with
  | nil => simp at ha
  | cons x xs ih =>
    rw [List.map_cons, List.nodup_cons] at hnd
    rcases List.mem_cons.mp ha with heq | hin
    · subst heq
      have htail : xs.filter (fun kp => kp.2.Heartbeat == a.2.Heartbeat) = [] := by
        rw [List.filter_eq_nil_iff]
        intro y hy hc
        exact hnd.1 (List.mem_map.mpr ⟨y, hy, by simpa using hc⟩)
      simp [List.filter_cons, htail]
    · have hne : x.2.Heartbeat ≠ a.2.Heartbeat := by
        intro e
        exact hnd.1 (List.mem_map.mpr ⟨a, hin, e.symm⟩)
      have e : (x.2.Heartbeat == a.2.Heartbeat) = false := beq_eq_false_iff_ne.mpr hne
      rw [List.filter_cons, e]
      exact ih hin hnd.2

/-- A live class with exactly one entry in the snapshot is sent that entry's
paths, once, and nothing else. -/
theorem pushes_live_present (l : Lister) (s : List currentDevices) (r : currentDevices)
    (p : Plugin) (hwf : PluginsWF l) (hnd : (snapshotNames s).Nodup) (hr : r ∈ s)
    (hp : l.Plugins.lookup r.pluginName = some p) :
    pushesTo p.Heartbeat (DiscoverStep l s).2 = [r.devices] := by
  have hmem := lookup_mem _ _ _ hp
  rw [pushesTo_DiscoverStep]
  have h1 : s.filterMap (fun x => (l.Plugins.lookup x.pluginName).bind
        (fun val => if val.Heartbeat = p.Heartbeat then some x.devices else none)) =
      [r.devices] := by
    rw [← filterMap_unique_name s r hnd hr]
    refine List.filterMap_congr ?_
    intro x _
    by_cases hx : x.pluginName = r.pluginName
    · simp [hx, hp]
    · cases hq : l.Plugins.lookup x.pluginName with
      | none => simp [hx]
      | some q =>
        have hne : q.Heartbeat ≠ p.Heartbeat := by
          intro e
          have := chan_inj l hwf (x.pluginName, q) (r.pluginName, p)
            (lookup_mem _ _ _ hq) hmem e
          exact hx (congrArg Prod.fst this)
        simp [hx, hne]
  have h2 : l.Plugins.filter
      (fun kp => !(present s kp.1) && (kp.2.Heartbeat == p.Heartbeat)) = [] := by
    rw [List.filter_eq_nil_iff]
    intro kp hkp hc
    simp only [Bool.and_eq_true, Bool.not_eq_true', beq_iff_eq] at hc
    have := chan_inj l hwf kp (r.pluginName, p) hkp hmem hc.2
    have hpres : present s kp.1 = true := by
      rw [this, present_iff]
      exact List.mem_map.mpr ⟨r, hr, rfl⟩
    rw [hpres] at hc
    exact Bool.noConfusion hc.1
  rw [h1, h2]
  rfl

/-- A live class with no entry in the snapshot is sent the empty update, once,
and nothing else. -/
theorem pushes_live_absent (l : Lister) (s : List currentDevices) (c : String)
    (p : Plugin) (hwf : PluginsWF l) (hp : l.Plugins.lookup c = some p)
    (hc : present s c = false) :
    pushesTo p.Heartbeat (DiscoverStep l s).2 = [[]] := by
  have hmem := lookup_mem _ _ _ hp
  rw [pushesTo_DiscoverStep]
  have h1 : s.filterMap (fun x => (l.Plugins.lookup x.pluginName).bind
        (fun val => if val.Heartbeat = p.Heartbeat then some x.devices else none)) = [] := by
    rw [List.filterMap_eq_nil_iff]
    intro x hx
    cases hq : l.Plugins.lookup x.pluginName with
    | none => rfl
    | some q =>
      have hne : q.Heartbeat ≠ p.Heartbeat := by
        intro e
        have := chan_inj l hwf (x.pluginName, q) (c, p) (lookup_mem _ _ _ hq) hmem e
        have hxc : x.pluginName = c := congrArg Prod.fst this
        have : present s c = true := by
          rw [present_iff, ← hxc]
          exact List.mem_map.mpr ⟨x, hx, rfl⟩
        rw [hc] at this
        exact Bool.noConfusion this
      simp [hne]
  have h2 : l.Plugins.filter
      (fun kp => !(present s kp.1) && (kp.2.Heartbeat == p.Heartbeat)) = [(c, p)] := by
    rw [← filter_chan_unique l hwf (c, p) hmem]
    refine List.filter_congr ?_
    intro kp hkp
    by_cases hk : kp.2.Heartbeat = p.Heartbeat
    · have := chan_inj l hwf kp (c, p) hkp hmem hk
      subst this
      simp [hc]
    · have e : (kp.2.Heartbeat == p.Heartbeat) = false := beq_eq_false_iff_ne.mpr hk
      simp [e]
  rw [h1, h2]
  rfl

/-- A channel that no live actor holds is sent nothing. -/
theorem pushes_not_live (l : Lister) (s : List currentDevices) (ch : Nat)
    (hch : ∀ kp ∈ l.Plugins, kp.2.Heartbeat ≠ ch) :
    pushesTo ch (DiscoverStep l s).2 = [] := by
  rw [pushesTo_DiscoverStep]
  have h1 : s.filterMap (fun x => (l.Plugins.lookup x.pluginName).bind
        (fun val => if val.Heartbeat = ch then some x.devices else none)) = [] := by
    rw [List.filterMap_eq_nil_iff]
    intro x _
    cases hq : l.Plugins.lookup x.pluginName with
    | none => rfl
    | some q =>
      have hne : q.Heartbeat ≠ ch := hch _ (lookup_mem _ _ _ hq)
      simp [hne]
  have h2 : l.Plugins.filter
      (fun kp => !(present s kp.1) && (kp.2.Heartbeat == ch)) = [] := by
    rw [List.filter_eq_nil_iff]
    intro kp hkp hc
    simp only [Bool.and_eq_true, Bool.not_eq_true', beq_iff_eq] at hc
    exact hch kp hkp hc.2
  rw [h1, h2]
  rfl

/-! ## The invariant of the live set -/

theorem wf_initLister (config : List (String × PluginDeviceConfig)) :
    PluginsWF (initLister config) := by
  simp [PluginsWF, initLister]

theorem DiscoverStep_chanCount (l : Lister) (s : List currentDevices) :
    (DiscoverStep l s).1.chanCount = l.chanCount := rfl

theorem DiscoverStep_Config (l : Lister) (s : List currentDevices) :
    (DiscoverStep l s).1.Config = l.Config := rfl

theorem wf_DiscoverStep (l : Lister) (s : List currentDevices) (hwf : PluginsWF l) :
    PluginsWF (DiscoverStep l s).1 := by
  have hsub : List.Sublist (DiscoverStep l s).1.Plugins l.Plugins := by
    rw [DiscoverStep_plugins]
    exact List.filter_sublist _
  refine ⟨hwf.1.sublist (hsub.map _), hwf.2.1.sublist (hsub.map _), ?_⟩
  intro kp hkp
  rw [DiscoverStep_chanCount]
  exact hwf.2.2 kp (hsub.subset hkp)

theorem wf_NewPlugin (l : Lister) (name : String) (hwf : PluginsWF l) :
    PluginsWF (NewPlugin l name).1 := by
  have hsub : List.Sublist (mapDelete l.Plugins name) l.Plugins := List.filter_sublist _
  refine ⟨?_, ?_, ?_⟩
  · show ((mapDelete l.Plugins name ++ [(name, (NewPlugin l name).2)]).map
      (fun kp : String × Plugin => kp.1)).Nodup
    rw [List.map_append, List.nodup_append]
    refine ⟨hwf.1.sublist (hsub.map _), by simp, ?_⟩
    intro a ha hb
    simp only [List.map_cons, List.map_nil, List.mem_singleton] at hb
    subst hb
    obtain ⟨kp, hkp, e⟩ := List.mem_map.mp ha
    simp only [mapDelete, List.mem_filter, Bool.not_eq_true', beq_eq_false_iff_ne] at hkp
    exact hkp.2 e
  · show ((mapDelete l.Plugins name ++ [(name, (NewPlugin l name).2)]).map
      (fun kp : String × Plugin => kp.2.Heartbeat)).Nodup
    rw [List.map_append, List.nodup_append]
    refine ⟨hwf.2.1.sublist (hsub.map _), by simp, ?_⟩
    intro a ha hb
    simp only [List.map_cons, List.map_nil, List.mem_singleton] at hb
    subst hb
    obtain ⟨kp, hkp, e⟩ := List.mem_map.mp ha
    have hlt := hwf.2.2 kp (hsub.subset hkp)
    have e2 : kp.2.Heartbeat = l.chanCount := e
    omega
  · intro kp hkp
    show kp.2.Heartbeat < l.chanCount + 1
    have hkp2 : kp ∈ mapDelete l.Plugins name ++ [(name, (NewPlugin l name).2)] := hkp
    rcases List.mem_append.mp hkp2 with h | h
    · have := hwf.2.2 kp (hsub.subset h)
      omega
    · simp only [List.mem_singleton] at h
      subst h
      exact Nat.lt_succ_self _

/-- Every state the program can be in satisfies the invariant of the live set. -/
theorem wf_of_reachable (config : List (String × PluginDeviceConfig)) (l : Lister)
    (h : Reachable config l) : PluginsWF l := by
  induction h with
  | init => exact wf_initLister config
  | newPlugin l name _ ih => exact wf_NewPlugin l name ih
  | discover l s _ ih => exact wf_DiscoverStep l s ih

theorem NewPlugin_lookup (l : Lister) (name : String) (hwf : PluginsWF l) :
    (NewPlugin l name).1.Plugins.lookup name = some (NewPlugin l name).2 := by
  refine lookup_of_mem _ _ _ (wf_NewPlugin l name hwf).1 ?_
  show (name, (NewPlugin l name).2) ∈
    mapDelete l.Plugins name ++ [(name, (NewPlugin l name).2)]
  simp

theorem DiscoverStep_lookup_absent (l : Lister) (s : List currentDevices) (k : String)
    (hk : present s k = false) :
    (DiscoverStep l s).1.Plugins.lookup k = none := by
  rw [lookup_none_iff, DiscoverStep_plugins]
  intro hmem
  obtain ⟨kp, hkp, e⟩ := List.mem_map.mp hmem
  rw [List.mem_filter] at hkp
  have e2 : kp.1 = k := e
  rw [e2, hk] at hkp
  exact Bool.noConfusion hkp.2

theorem DiscoverStep_lookup_none (l : Lister) (s : List currentDevices) (k : String)
    (hk : l.Plugins.lookup k = none) :
    (DiscoverStep l s).1.Plugins.lookup k = none := by
  rw [lookup_none_iff] at hk ⊢
  intro hmem
  apply hk
  have hsub : List.Sublist (DiscoverStep l s).1.Plugins l.Plugins := by
    rw [DiscoverStep_plugins]
    exact List.filter_sublist _
  exact (hsub.map _).subset hmem

theorem removeEvents_split (l : Lister) (s : List currentDevices) (c : String) (p : Plugin)
    (hwf : PluginsWF l) (hp : l.Plugins.lookup c = some p) (hc : present s c = false) :
    ∃ pre post, removeEvents l.Plugins s =
        pre ++ Event.push p.Heartbeat [] :: Event.delete c :: post ∧
      Event.delete c ∉ pre ∧ Event.delete c ∉ post := by
  have hmem : (c, p) ∈ l.Plugins.filter (fun kp => !(present s kp.1)) := by
    rw [List.mem_filter]
    exact ⟨lookup_mem _ _ _ hp, by simp [hc]⟩
  have hnd : ((l.Plugins.filter (fun kp => !(present s kp.1))).map (fun kp => kp.1)).Nodup :=
    hwf.1.sublist ((List.filter_sublist _).map _)
  obtain ⟨A, B, hAB⟩ := List.append_of_mem hmem
  rw [hAB, List.map_append, List.map_cons, List.nodup_append, List.nodup_cons] at hnd
  have key : ∀ X : List (String × Plugin), c ∉ X.map (fun kp => kp.1) →
      Event.delete c ∉ X.flatMap
        (fun kp => [Event.push kp.2.Heartbeat [], Event.delete kp.1]) := by
    intro X hX hin
    rw [List.mem_flatMap] at hin
    obtain ⟨kp, hkp, hin⟩ := hin
    simp only [List.mem_cons, List.mem_singleton, List.not_mem_nil, or_false] at hin
    rcases hin with h | h
    · exact Event.noConfusion h
    · exact hX (List.mem_map.mpr ⟨kp, hkp, (Event.delete.inj h).symm⟩)
  refine ⟨A.flatMap (fun kp => [Event.push kp.2.Heartbeat [], Event.delete kp.1]),
    B.flatMap (fun kp => [Event.push kp.2.Heartbeat [], Event.delete kp.1]), ?_, ?_, ?_⟩
  · unfold removeEvents
    rw [hAB]
    simp
  · apply key
    intro hin
    exact hnd.2.2 hin (List.mem_cons_self _ _)
  · exact key B hnd.2.1.1

theorem delete_not_mem_pushEvents (plugins : List (String × Plugin)) (s : List currentDevices)
    (c : String) : Event.delete c ∉ pushEvents plugins s := by
  intro hin
  simp only [pushEvents, List.mem_filterMap] at hin
  obtain ⟨r, _, hr⟩ := hin
  cases hq : plugins.lookup r.pluginName <;> simp [hq] at hr

theorem no_batch_in_loops (plugins : List (String × Plugin)) (s : List currentDevices) :
    ∀ e ∈ pushEvents plugins s ++ removeEvents plugins s, e.isBatch = false := by
  intro e he
  rcases List.mem_append.mp he with h | h
  · simp only [pushEvents, List.mem_filterMap] at h
    obtain ⟨r, _, hr⟩ := h
    cases hq : plugins.lookup r.pluginName with
    | none => simp [hq] at hr
    | some q =>
      simp only [hq, Option.map_some', Option.some.injEq] at hr
      rw [← hr]
      rfl
  · simp only [removeEvents, List.mem_flatMap] at h
    obtain ⟨kp, _, hkp⟩ := h
    simp only [List.mem_cons, List.mem_singleton, List.not_mem_nil, or_false] at hkp
    rcases hkp with h | h <;> rw [h] <;> rfl

theorem batches_DiscoverStep (l : Lister) (s : List currentDevices) :
    batches (DiscoverStep l s).2 =
      (if newNames l.Plugins s = [] then [] else [newNames l.Plugins s]) := by
  have hb : batches (pushEvents l.Plugins s ++ removeEvents l.Plugins s) = [] := by
    rw [batches, List.filterMap_eq_nil_iff]
    intro e he
    have := no_batch_in_loops l.Plugins s e he
    cases e <;> simp_all [Event.isBatch]
  rw [DiscoverStep_trace]
  unfold batches at hb ⊢
  rw [List.filterMap_append, hb]
  by_cases hn : newNames l.Plugins s = [] <;> simp [hn]

theorem mem_newNames (plugins : List (String × Plugin)) (s : List currentDevices)
    (r : currentDevices) (hr : r ∈ s) (hp : plugins.lookup r.pluginName = none) :
    r.pluginName ∈ newNames plugins s := by
  simp only [newNames, List.mem_map, List.mem_filter]
  exact ⟨r, ⟨hr, by simp [hp]⟩, rfl⟩

theorem batches_of_new (l : Lister) (s : List currentDevices)
    (r : currentDevices) (hr : r ∈ s) (hp : l.Plugins.lookup r.pluginName = none) :
    batches (DiscoverStep l s).2 = [newNames l.Plugins s] := by
  rw [batches_DiscoverStep]
  have hne : newNames l.Plugins s ≠ [] :=
    List.ne_nil_of_mem (mem_newNames l.Plugins s r hr hp)
  rw [if_neg hne]

/-! ## The reconcile step -/

/-- C1: in one reconcile step on a snapshot whose class names are pairwise
distinct, every entry `r` of the snapshot whose class is live gets exactly one
update on its actor's channel during the step, and that update is the entry's
path list `r.devices`, unchanged. -/
theorem reconcile_live_class_gets_paths (l : Lister) (s : List currentDevices)
    (r : currentDevices) (p : Plugin) (hwf : PluginsWF l)
    (hnd : (snapshotNames s).Nodup) (hr : r ∈ s)
    (hp : l.Plugins.lookup r.pluginName = some p) :
    pushesTo p.Heartbeat (DiscoverStep l s).2 = [r.devices] :=
  pushes_live_present l s r p hwf hnd hr hp

/-- The scenario: `thermo` is live and the snapshot holds `/dev/a` for it. -/
theorem reconcile_live_class_gets_paths_witness :
    PluginsWF thermoLive ∧ (snapshotNames thermoSnapshot).Nodup ∧
    thermoLive.Plugins.lookup "thermo" = some (NewPlugin thermoIdle "thermo").2 ∧
    pushesTo 0 (DiscoverStep thermoLive thermoSnapshot).2 = [["/dev/a"]] :=
  ⟨by decide, by decide, by decide,
   reconcile_live_class_gets_paths thermoLive thermoSnapshot
     { pluginName := "thermo", devices := ["/dev/a"] } (NewPlugin thermoIdle "thermo").2
     (by decide) (by decide) (by decide) (by decide)⟩

/-- C3: in one reconcile step, a live class `c` with no entry in the snapshot gets
exactly one update, the empty list; that send comes right before
`delete(l.Plugins, c)`, which happens once; `c` is not live after the step; and
the step after it, whatever its snapshot (so also one that omits `c` again),
sends nothing on the channel of the removed actor. -/
theorem reconcile_teardown (l : Lister) (s : List currentDevices) (c : String) (p : Plugin)
    (hwf : PluginsWF l) (hp : l.Plugins.lookup c = some p) (hc : c ∉ snapshotNames s) :
    pushesTo p.Heartbeat (DiscoverStep l s).2 = [[]] ∧
    (∃ pre post, (DiscoverStep l s).2 =
        pre ++ Event.push p.Heartbeat [] :: Event.delete c :: post ∧
      Event.delete c ∉ pre ∧ Event.delete c ∉ post) ∧
    (DiscoverStep l s).1.Plugins.lookup c = none ∧
    ∀ s2 : List currentDevices,
      pushesTo p.Heartbeat (DiscoverStep (DiscoverStep l s).1 s2).2 = [] := by
  have hcf : present s c = false := by
    cases h : present s c
    · rfl
    · exact absurd ((present_iff s c).mp h) hc
  refine ⟨pushes_live_absent l s c p hwf hp hcf, ?_, DiscoverStep_lookup_absent l s c hcf, ?_⟩
  · obtain ⟨pre, post, hsplit, hpre, hpost⟩ := removeEvents_split l s c p hwf hp hcf
    refine ⟨pushEvents l.Plugins s ++ pre,
      post ++ (if newNames l.Plugins s = [] then []
        else [Event.batch (newNames l.Plugins s)]), ?_, ?_, ?_⟩
    · rw [DiscoverStep_trace, hsplit]
      simp
    · intro hin
      rcases List.mem_append.mp hin with h | h
      · exact delete_not_mem_pushEvents _ _ _ h
      · exact hpre h
    · intro hin
      rcases List.mem_append.mp hin with h | h
      · exact hpost h
      · by_cases hn : newNames l.Plugins s = []
        · simp [hn] at h
        · simp [hn] at h
  · intro s2
    apply pushes_not_live
    intro kp hkp hch
    rw [DiscoverStep_plugins, List.mem_filter] at hkp
    have := chan_inj l hwf kp (c, p) hkp.1 (lookup_mem _ _ _ hp) hch
    rw [this, hcf] at hkp
    exact Bool.noConfusion hkp.2

/-- The scenario: `thermo` is live and the snapshot is empty. -/
theorem reconcile_teardown_witness :
    PluginsWF thermoLive ∧
    thermoLive.Plugins.lookup "thermo" = some (NewPlugin thermoIdle "thermo").2 ∧
    "thermo" ∉ snapshotNames [] ∧
    pushesTo 0 (DiscoverStep thermoLive []).2 = [[]] ∧
    (∃ pre post, (DiscoverStep thermoLive []).2 =
        pre ++ Event.push 0 [] :: Event.delete "thermo" :: post ∧
      Event.delete "thermo" ∉ pre ∧ Event.delete "thermo" ∉ post) ∧
    (DiscoverStep thermoLive []).1.Plugins.lookup "thermo" = none ∧
    ∀ s2 : List currentDevices,
      pushesTo 0 (DiscoverStep (DiscoverStep thermoLive []).1 s2).2 = [] :=
  ⟨by decide, by decide, by decide,
   reconcile_teardown thermoLive [] "thermo" (NewPlugin thermoIdle "thermo").2
     (by decide) (by decide) (by decide)⟩

/-- C4: one reconcile step sends at most one discovery batch; the batch, when
there is one, is the last event of the step (every send to an actor and every
deletion comes before it) and lists the class names of the snapshot entries that
have no live actor, in snapshot order, so no listed class is live; when the
snapshot has no such entry, no batch is sent. -/
theorem discovery_batch (l : Lister) (s : List currentDevices) :
    (batches (DiscoverStep l s).2).length ≤ 1 ∧
    batches (DiscoverStep l s).2 =
      (if newNames l.Plugins s = [] then [] else [newNames l.Plugins s]) ∧
    (∃ pre, (∀ e ∈ pre, e.isBatch = false) ∧
      (DiscoverStep l s).2 = pre ++
        (if newNames l.Plugins s = [] then [] else [Event.batch (newNames l.Plugins s)])) ∧
    newNames l.Plugins s =
      (s.filter (fun r => (l.Plugins.lookup r.pluginName).isNone)).map
        (fun r => r.pluginName) ∧
    ∀ c ∈ newNames l.Plugins s, l.Plugins.lookup c = none := by
  refine ⟨?_, batches_DiscoverStep l s,
    ⟨_, no_batch_in_loops l.Plugins s, DiscoverStep_trace l s⟩, rfl, ?_⟩
  · rw [batches_DiscoverStep]
    by_cases hn : newNames l.Plugins s = [] <;> simp [hn]
  · intro c hc
    simp only [newNames, List.mem_map, List.mem_filter] at hc
    obtain ⟨r, ⟨_, hr⟩, e⟩ := hc
    rw [← e]
    simpa using hr

/-- C2, as the code has it: a snapshot entry `r` whose class has no live actor is
not given an actor by the reconcile step: the class is still not live when the
step finishes, and every update the step sends goes on the channel of another
class, one that was live before the step.  The step reports the class in its
discovery batch.  The actor is made by `NewPlugin(r.pluginName)`: when that is
called on the state the step leaves, the class is live with the configured
device and a channel on which the step has sent nothing.  The first update on
that channel is sent by the reconcile step that directly follows the call: it is
the path list of the class in the snapshot of that step when the snapshot (class
names pairwise distinct) holds the class, and the empty list, after which the
class is not live, when the snapshot omits the class. -/
theorem reconcile_new_class (l : Lister) (s : List currentDevices) (r : currentDevices)
    (hwf : PluginsWF l) (hr : r ∈ s) (hp : l.Plugins.lookup r.pluginName = none) :
    (DiscoverStep l s).1.Plugins.lookup r.pluginName = none ∧
    (∀ ch, pushesTo ch (DiscoverStep l s).2 ≠ [] →
      ∃ kp ∈ l.Plugins, kp.2.Heartbeat = ch ∧ kp.1 ≠ r.pluginName) ∧
    batches (DiscoverStep l s).2 = [newNames l.Plugins s] ∧
    r.pluginName ∈ newNames l.Plugins s ∧
    (NewPlugin (DiscoverStep l s).1 r.pluginName).1.Plugins.lookup r.pluginName =
      some (NewPlugin (DiscoverStep l s).1 r.pluginName).2 ∧
    (NewPlugin (DiscoverStep l s).1 r.pluginName).2.Device =
      (l.Config.lookup r.pluginName).getD PluginDeviceConfig.zero ∧
    pushesTo (NewPlugin (DiscoverStep l s).1 r.pluginName).2.Heartbeat (DiscoverStep l s).2 = [] ∧
    (∀ (s2 : List currentDevices) (r2 : currentDevices), (snapshotNames s2).Nodup → r2 ∈ s2 →
      r2.pluginName = r.pluginName →
      pushesTo (NewPlugin (DiscoverStep l s).1 r.pluginName).2.Heartbeat
        (DiscoverStep (NewPlugin (DiscoverStep l s).1 r.pluginName).1 s2).2 = [r2.devices]) ∧
    ∀ s2 : List currentDevices, r.pluginName ∉ snapshotNames s2 →
      pushesTo (NewPlugin (DiscoverStep l s).1 r.pluginName).2.Heartbeat
        (DiscoverStep (NewPlugin (DiscoverStep l s).1 r.pluginName).1 s2).2 = [[]] ∧
      (DiscoverStep (NewPlugin (DiscoverStep l s).1 r.pluginName).1 s2).1.Plugins.lookup
        r.pluginName = none := by
  have hwf1 := wf_DiscoverStep l s hwf
  refine ⟨DiscoverStep_lookup_none l s _ hp, ?_, batches_of_new l s r hr hp,
    mem_newNames l.Plugins s r hr hp, NewPlugin_lookup _ _ hwf1, rfl, ?_, ?_, ?_⟩
  · intro ch hne
    by_contra hcon
    apply hne
    apply pushes_not_live
    intro kp hkp hch
    apply hcon
    refine ⟨kp, hkp, hch, ?_⟩
    intro hname
    exact (lookup_none_iff l.Plugins r.pluginName).mp hp
      (List.mem_map.mpr ⟨kp, hkp, hname⟩)
  · apply pushes_not_live
    intro kp hkp
    have hlt := hwf.2.2 kp hkp
    have e : (NewPlugin (DiscoverStep l s).1 r.pluginName).2.Heartbeat = l.chanCount := rfl
    omega
  · intro s2 r2 hnd2 hr2 hname
    refine pushes_live_present _ s2 r2 _ (wf_NewPlugin _ _ hwf1) hnd2 hr2 ?_
    rw [hname]
    exact NewPlugin_lookup _ _ hwf1
  · intro s2 habs
    have hcf : present s2 r.pluginName = false := by
      cases h : present s2 r.pluginName
      · rfl
      · exact absurd ((present_iff s2 _).mp h) habs
    exact ⟨pushes_live_absent _ s2 _ _ (wf_NewPlugin _ _ hwf1) (NewPlugin_lookup _ _ hwf1) hcf,
      DiscoverStep_lookup_absent _ s2 _ hcf⟩

/-- The scenario: `thermo` is not live when the first snapshot arrives; after
`NewPlugin("thermo")` the next step sends it `/dev/a` when the snapshot holds the
class and the empty list when the snapshot is empty. -/
theorem reconcile_new_class_witness :
    PluginsWF thermoIdle ∧
    thermoIdle.Plugins.lookup "thermo" = none ∧
    (DiscoverStep thermoIdle thermoSnapshot).1.Plugins.lookup "thermo" = none ∧
    batches (DiscoverStep thermoIdle thermoSnapshot).2 = [["thermo"]] ∧
    pushesTo 0 (DiscoverStep thermoLive thermoSnapshot).2 = [["/dev/a"]] ∧
    pushesTo 0 (DiscoverStep thermoLive []).2 = [[]] :=
  have h := reconcile_new_class thermoIdle thermoSnapshot
    { pluginName := "thermo", devices := ["/dev/a"] } (by decide) (by decide) (by decide)
  ⟨by decide, by decide, h.1, h.2.2.1,
   h.2.2.2.2.2.2.2.1 thermoSnapshot { pluginName := "thermo", devices := ["/dev/a"] }
     (by decide) (by decide) rfl,
   (h.2.2.2.2.2.2.2.2 [] (by decide)).1⟩

/-- C2 as stated fails: on the first snapshot of the scenario, with no live actor,
the reconcile step leaves `thermo` out of the live set and sends no update at
all; its whole trace is the discovery batch. -/
theorem reconcile_new_class_not_created :
    thermoIdle.Plugins.lookup "thermo" = none ∧
    (DiscoverStep thermoIdle thermoSnapshot).1.Plugins.lookup "thermo" = none ∧
    (DiscoverStep thermoIdle thermoSnapshot).1.Plugins = [] ∧
    (DiscoverStep thermoIdle thermoSnapshot).2 = [Event.batch ["thermo"]] := by
  decide

theorem ListAndWatch_eq (beats : List (List String)) :
    ListAndWatch beats =
      { sent := beats.map (fun beat =>
          { Devices := beat.map (fun device => { ID := device, Health := Healthy }) })
        returned := none } := by
  induction beats with
  | nil => rfl
  | cons beat rest ih =>
    unfold ListAndWatch
    rw [ih]
    cases beat with
    | nil => simp [ListAndWatchBeat]
    | cons d ds => simp [ListAndWatchBeat]

/-- C5, as the code has it: when the watch relay receives an empty update (after
any updates `before`), it hands an empty device list to the watcher and stays in
its loop; the call has not returned, whatever arrives afterwards, and every
update that arrives afterwards is relayed on the same stream, in order. -/
theorem watch_relay_keeps_running (before after : List (List String)) :
    (ListAndWatch (before ++ [] :: after)).sent =
      (ListAndWatch before).sent ++ { Devices := [] } :: (ListAndWatch after).sent ∧
    (ListAndWatch (before ++ [] :: after)).returned = none ∧
    (ListAndWatch after).sent = after.map (fun beat =>
      { Devices := beat.map (fun device => { ID := device, Health := Healthy }) }) := by
  rw [ListAndWatch_eq (before ++ [] :: after), ListAndWatch_eq before, ListAndWatch_eq after]
  refine ⟨?_, rfl, rfl⟩
  show List.map _ (before ++ [] :: after) = List.map _ before ++ _ :: List.map _ after
  rw [List.map_append, List.map_cons]
  rfl

/-- C5 as stated fails: after the empty update the call has not returned, and the
update `["/dev/a"]` that follows is relayed on the stream. -/
theorem watch_relay_does_not_end :
    (ListAndWatch [[], ["/dev/a"]]).returned = none ∧
    (ListAndWatch [[]]).returned ≠ some none ∧
    (ListAndWatch [[], ["/dev/a"]]).sent =
      [{ Devices := [] }, { Devices := [{ ID := "/dev/a", Health := Healthy }] }] := by
  decide

/-! ## The scanner -/

theorem foldl_scanPath (stat : String → Option StatError) (paths acc : List String) :
    paths.foldl (scanPath stat) acc =
      acc ++ paths.filter (fun hostpath => !(errorsIsNotExist (stat hostpath))) := by
  induction paths generalizing acc with
  | nil => simp
  | cons x xs ih =>
    rw [List.foldl_cons, ih]
    unfold scanPath
    cases h : errorsIsNotExist (stat x) <;> simp [h, List.filter_cons]

theorem scan_eq (stat : String → Option StatError)
    (devices : List (String × PluginDeviceConfig)) :
    scan stat devices = devices.filterMap (fun entry =>
      if keptPaths stat entry.2 = [] then none
      else some { pluginName := entry.1, devices := keptPaths stat entry.2 }) := by
  have key : ∀ acc : List currentDevices, devices.foldl (scanClass stat) acc =
      acc ++ devices.filterMap (fun entry =>
        if keptPaths stat entry.2 = [] then none
        else some { pluginName := entry.1, devices := keptPaths stat entry.2 }) := by
    induction devices with
    | nil => simp
    | cons e es ih =>
      intro acc
      rw [List.foldl_cons, ih]
      unfold scanClass
      simp only [foldl_scanPath, List.nil_append]
      by_cases hk : keptPaths stat e.2 = []
      · have hk2 : e.2.HostPaths.filter
            (fun hostpath => !(errorsIsNotExist (stat hostpath))) = [] := hk
        rw [List.filterMap_cons_none (by rw [if_pos hk]), hk2]
        simp
      · have hk2 : e.2.HostPaths.filter
            (fun hostpath => !(errorsIsNotExist (stat hostpath))) ≠ [] := hk
        have hlen : (e.2.HostPaths.filter
            (fun hostpath => !(errorsIsNotExist (stat hostpath)))).length > 0 :=
          List.length_pos.mpr hk2
        rw [if_pos hlen, List.filterMap_cons_some (by rw [if_neg hk])]
        simp [keptPaths]
  simpa [scan] using key []

theorem mem_scan (stat : String → Option StatError)
    (devices : List (String × PluginDeviceConfig)) (r : currentDevices) :
    r ∈ scan stat devices ↔ ∃ entry ∈ devices, keptPaths stat entry.2 ≠ [] ∧
      r = { pluginName := entry.1, devices := keptPaths stat entry.2 } := by
  rw [scan_eq, List.mem_filterMap]
  constructor
  · rintro ⟨e, he, h⟩
    by_cases hk : keptPaths stat e.2 = []
    · simp [hk] at h
    · simp only [hk, if_false, Option.some.injEq] at h
      exact ⟨e, he, hk, h.symm⟩
  · rintro ⟨e, he, hk, h⟩
    exact ⟨e, he, by simp [hk, h]⟩

theorem scan_names_nodup (stat : String → Option StatError)
    (devices : List (String × PluginDeviceConfig))
    (hnd : (devices.map (fun entry => entry.1)).Nodup) :
    (snapshotNames (scan stat devices)).Nodup := by
  have h : snapshotNames (scan stat devices) =
      (devices.filter (fun entry => !(decide (keptPaths stat entry.2 = [])))).map
        (fun entry => entry.1) := by
    rw [scan_eq, snapshotNames]
    induction devices with
    | nil => rfl
    | cons e es ih =>
      rw [List.map_cons, List.nodup_cons] at hnd
      by_cases hk : keptPaths stat e.2 = []
      · simpa [List.filterMap_cons, List.filter_cons, hk] using ih hnd.2
      · simpa [List.filterMap_cons, List.filter_cons, hk] using ih hnd.2
  rw [h]
  exact hnd.sublist ((List.filter_sublist _).map _)

/-- The entry of the snapshot for a configured class, if there is one, carries the
kept paths of the class. -/
theorem scan_entry (stat : String → Option StatError)
    (devices : List (String × PluginDeviceConfig))
    (hnd : (devices.map (fun entry => entry.1)).Nodup)
    (c : String) (cfg : PluginDeviceConfig) (hc : (c, cfg) ∈ devices)
    (r : currentDevices) (hr : r ∈ scan stat devices) (hname : r.pluginName = c) :
    r.devices = keptPaths stat cfg := by
  obtain ⟨e, he, _, hre⟩ := (mem_scan stat devices r).mp hr
  have h1 : e.1 = c := by rw [← hname, hre]
  have h2 := lookup_of_mem devices c cfg hnd hc
  have h3 := lookup_of_mem devices e.1 e.2 hnd he
  rw [h1, h2] at h3
  rw [hre]
  simp only
  rw [← Option.some.inj h3]

theorem keptPaths_of_stat (stat : String → Option StatError)
    (hstat : ∀ hostpath, stat hostpath = none ∨ stat hostpath = some StatError.ErrNotExist)
    (cfg : PluginDeviceConfig) :
    keptPaths stat cfg = cfg.HostPaths.filter (pathExists stat) := by
  unfold keptPaths
  refine List.filter_congr ?_
  intro x _
  rcases hstat x with h | h <;> simp [pathExists, errorsIsNotExist, h]

/-- C6: when every `os.Stat` either succeeds or fails with "does not exist", the
snapshot built by the scan over a configuration map has at most one entry per
class (its class names are pairwise distinct) and only entries of configured
classes; a configured class has an entry exactly when one of its host paths
exists; and the entry's device list is the host paths of the class that exist,
in configured order, so it is not empty and holds configured paths only. -/
theorem scan_snapshot (stat : String → Option StatError)
    (devices : List (String × PluginDeviceConfig))
    (hnd : (devices.map (fun entry => entry.1)).Nodup)
    (hstat : ∀ hostpath, stat hostpath = none ∨ stat hostpath = some StatError.ErrNotExist) :
    (snapshotNames (scan stat devices)).Nodup ∧
    (∀ r ∈ scan stat devices, ∃ cfg, (r.pluginName, cfg) ∈ devices) ∧
    ∀ c cfg, (c, cfg) ∈ devices →
      ((∃ r ∈ scan stat devices, r.pluginName = c) ↔
        ∃ hostpath ∈ cfg.HostPaths, pathExists stat hostpath = true) ∧
      ∀ r ∈ scan stat devices, r.pluginName = c →
        r.devices = cfg.HostPaths.filter (pathExists stat) ∧
        List.Sublist r.devices cfg.HostPaths ∧ r.devices ≠ [] ∧
        ∀ hostpath ∈ r.devices, hostpath ∈ cfg.HostPaths := by
  refine ⟨scan_names_nodup stat devices hnd, ?_, ?_⟩
  · intro r hr
    obtain ⟨e, he, _, hre⟩ := (mem_scan stat devices r).mp hr
    exact ⟨e.2, by rw [hre]; exact he⟩
  · intro c cfg hc
    have hkept := keptPaths_of_stat stat hstat cfg
    refine ⟨⟨?_, ?_⟩, ?_⟩
    · rintro ⟨r, hr, hname⟩
      have hdev := scan_entry stat devices hnd c cfg hc r hr hname
      obtain ⟨e, _, hk, hre⟩ := (mem_scan stat devices r).mp hr
      have hne : cfg.HostPaths.filter (pathExists stat) ≠ [] := by
        rw [← hkept, ← hdev, hre]
        exact hk
      obtain ⟨x, hx⟩ := List.exists_mem_of_ne_nil _ hne
      rw [List.mem_filter] at hx
      exact ⟨x, hx.1, hx.2⟩
    · rintro ⟨x, hx, hex⟩
      refine ⟨{ pluginName := c, devices := keptPaths stat cfg }, ?_, rfl⟩
      rw [mem_scan]
      refine ⟨(c, cfg), hc, ?_, rfl⟩
      rw [hkept]
      exact List.ne_nil_of_mem (List.mem_filter.mpr ⟨hx, hex⟩)
    · intro r hr hname
      have hdev := scan_entry stat devices hnd c cfg hc r hr hname
      obtain ⟨e, _, hk, hre⟩ := (mem_scan stat devices r).mp hr
      rw [hkept] at hdev
      refine ⟨hdev, ?_, ?_, ?_⟩
      · rw [hdev]
        exact List.filter_sublist _
      · rw [hre]
        exact hk
      · intro x hx
        rw [hdev] at hx
        exact (List.mem_filter.mp hx).1

/-- The scenario: `/dev/a` exists and `/dev/b` does not. -/
theorem scan_snapshot_witness :
    (thermoConfig.map (fun entry => entry.1)).Nodup ∧
    (∀ hostpath, statOnlyA hostpath = none ∨
      statOnlyA hostpath = some StatError.ErrNotExist) ∧
    scan statOnlyA thermoConfig = [{ pluginName := "thermo", devices := ["/dev/a"] }] ∧
    (snapshotNames (scan statOnlyA thermoConfig)).Nodup :=
  have hstat : ∀ hostpath, statOnlyA hostpath = none ∨
      statOnlyA hostpath = some StatError.ErrNotExist := by
    intro hostpath
    unfold statOnlyA
    by_cases h : hostpath = "/dev/a"
    · exact Or.inl (if_pos h)
    · exact Or.inr (if_neg h)
  ⟨by decide, hstat, by decide,
   (scan_snapshot statOnlyA thermoConfig (by decide) hstat).1⟩

/-- C7, as the code has it: the scan treats a host path as absent exactly when its
`os.Stat` fails with "does not exist".  Such a path is in no device list, and a
class all of whose paths fail that way has no snapshot entry; a path whose
`os.Stat` fails with any other error (permission denied, I/O error) is kept in
the device list of its class, which then has an entry. -/
theorem scan_failed_stat (stat : String → Option StatError)
    (devices : List (String × PluginDeviceConfig))
    (hnd : (devices.map (fun entry => entry.1)).Nodup)
    (c : String) (cfg : PluginDeviceConfig) (hc : (c, cfg) ∈ devices) :
    (∀ hostpath, stat hostpath = some StatError.ErrNotExist →
      ∀ r ∈ scan stat devices, hostpath ∉ r.devices) ∧
    ((∀ hostpath ∈ cfg.HostPaths, stat hostpath = some StatError.ErrNotExist) →
      ∀ r ∈ scan stat devices, r.pluginName ≠ c) ∧
    (∀ hostpath ∈ cfg.HostPaths, ∀ err, stat hostpath = some err →
      err ≠ StatError.ErrNotExist →
      ∃ r ∈ scan stat devices, r.pluginName = c ∧ hostpath ∈ r.devices) := by
  refine ⟨?_, ?_, ?_⟩
  · intro x hx r hr hin
    obtain ⟨e, _, _, hre⟩ := (mem_scan stat devices r).mp hr
    rw [hre] at hin
    have := (List.mem_filter.mp hin).2
    simp [hx, errorsIsNotExist] at this
  · intro hall r hr hname
    have hdev := scan_entry stat devices hnd c cfg hc r hr hname
    obtain ⟨e, _, hk, hre⟩ := (mem_scan stat devices r).mp hr
    have hnil : keptPaths stat cfg = [] := by
      rw [keptPaths, List.filter_eq_nil_iff]
      intro x hx
      simp [hall x hx, errorsIsNotExist]
    apply hk
    have : r.devices = keptPaths stat e.2 := by rw [hre]
    rw [← this, hdev, hnil]
  · intro x hx err herr hne
    have hkept : x ∈ keptPaths stat cfg := by
      rw [keptPaths, List.mem_filter]
      refine ⟨hx, ?_⟩
      rw [herr]
      cases err <;> simp_all [errorsIsNotExist]
    refine ⟨{ pluginName := c, devices := keptPaths stat cfg }, ?_, rfl, hkept⟩
    rw [mem_scan]
    exact ⟨(c, cfg), hc, List.ne_nil_of_mem hkept, rfl⟩

/-- The scenario with `os.Stat` denied on `/dev/a`. -/
theorem scan_failed_stat_witness :
    (thermoConfig.map (fun entry => entry.1)).Nodup ∧
    statDeniedA "/dev/a" = some StatError.ErrPermission ∧
    ∃ r ∈ scan statDeniedA thermoConfig, r.pluginName = "thermo" ∧ "/dev/a" ∈ r.devices :=
  ⟨by decide, by decide,
   (scan_failed_stat statDeniedA thermoConfig (by decide) "thermo"
     { HostPaths := ["/dev/a", "/dev/b"], ContainerPath := "/dev/thermo" }
     (by decide)).2.2 "/dev/a" (by decide) StatError.ErrPermission (by decide) (by decide)⟩

/-- C7 as stated fails: `os.Stat` on `/dev/a` fails with permission denied (and on
`/dev/b` with "does not exist"), yet the scan keeps `/dev/a` as present and the
class `thermo` has a snapshot entry. -/
theorem scan_keeps_denied_path :
    statDeniedA "/dev/a" = some StatError.ErrPermission ∧
    statDeniedA "/dev/b" = some StatError.ErrNotExist ∧
    scan statDeniedA thermoConfig = [{ pluginName := "thermo", devices := ["/dev/a"] }] := by
  decide

/-! ## Allocation -/

theorem foldl_allocateDevice (p : Plugin) (ids : List String) (car : ContainerAllocateResponse) :
    ids.foldl (allocateDevice p) car = { Devices := car.Devices ++ ids.map (grant p) } := by
  induction ids generalizing car with
  | nil => simp
  | cons id ids ih =>
    rw [List.foldl_cons, ih]
    simp [allocateDevice, grant]

theorem foldl_allocateRequest (p : Plugin) (reqs : List ContainerAllocateRequest)
    (frame : AllocateFrame) :
    reqs.foldl (allocateRequest p) frame =
      { car := match reqs.getLast? with
          | none => frame.car
          | some req => { Devices := req.DevicesIDs.map (grant p) }
        response := { ContainerResponses :=
          frame.response.ContainerResponses ++ List.replicate reqs.length carAddr } } := by
  induction reqs generalizing frame with
  | nil => simp
  | cons req reqs ih =>
    rw [List.foldl_cons, ih]
    cases reqs with
    | nil => simp [allocateRequest, foldl_allocateDevice]
    | cons r2 rs =>
      cases hx : (r2 :: rs).getLast? with
      | none => simp at hx
      | some x =>
        simp [allocateRequest, List.getLast?_cons_cons, List.replicate_succ, hx]

/-- What a caller reads from the result of `Allocate`: every container response
is the variable `car`, which holds the grants of the last container request. -/
theorem Allocate_read (p : Plugin) (reqs : List ContainerAllocateRequest)
    (last : ContainerAllocateRequest) (hlast : reqs.getLast? = some last) :
    (Allocate p { ContainerRequests := reqs }).1.read =
      List.replicate reqs.length (some { Devices := last.DevicesIDs.map (grant p) }) := by
  simp only [Allocate, AllocateResult.read, foldl_allocateRequest, hlast, List.nil_append,
    List.map_replicate]
  rfl

/-- C8: on a request with exactly one container request, for any list `ids` of
identifiers, `Allocate` returns no error and a response with exactly one
container response, whose device list has the length of `ids` and whose `k`-th
grant has `ids[k]` as host path, the container path the actor is configured
with, and permissions `rw`. -/
theorem allocate_single_request (p : Plugin) (ids : List String) :
    (Allocate p { ContainerRequests := [{ DevicesIDs := ids }] }).2 = none ∧
    ∃ car, (Allocate p { ContainerRequests := [{ DevicesIDs := ids }] }).1.read = [some car] ∧
      car.Devices.length = ids.length ∧
      ∀ k, car.Devices.get? k = (ids.get? k).map (fun id =>
        { HostPath := id, ContainerPath := p.Device.ContainerPath, Permissions := "rw" }) := by
  refine ⟨rfl, { Devices := ids.map (grant p) }, ?_, ?_, ?_⟩
  · rw [Allocate_read p [{ DevicesIDs := ids }] { DevicesIDs := ids } rfl]
    rfl
  · simp
  · intro k
    simp only [List.get?_eq_getElem?, List.getElem?_map]
    rfl

/-- C9 fails on a request with two container requests: both container responses
of the result are the one variable `car`, so both read as the grants of the
second request, and the grant for `/dev/a` of the first request is lost. -/
theorem allocate_two_requests_alias :
    (Allocate thermoPlugin
      { ContainerRequests := [{ DevicesIDs := ["/dev/a"] }, { DevicesIDs := ["/dev/b"] }] }).1
      = { response := { ContainerResponses := [carAddr, carAddr] }
          store := [{ Devices := [{ HostPath := "/dev/b", ContainerPath := "/dev/thermo",
                                    Permissions := "rw" }] }] } ∧
    (Allocate thermoPlugin
      { ContainerRequests := [{ DevicesIDs := ["/dev/a"] }, { DevicesIDs := ["/dev/b"] }] }).1.read
      = [some { Devices := [{ HostPath := "/dev/b", ContainerPath := "/dev/thermo",
                              Permissions := "rw" }] },
         some { Devices := [{ HostPath := "/dev/b", ContainerPath := "/dev/thermo",
                              Permissions := "rw" }] }] ∧
    (Allocate thermoPlugin
      { ContainerRequests := [{ DevicesIDs := ["/dev/a"] }, { DevicesIDs := ["/dev/b"] }] }).1.read
      ≠ [some { Devices := [{ HostPath := "/dev/a", ContainerPath := "/dev/thermo",
                              Permissions := "rw" }] },
         some { Devices := [{ HostPath := "/dev/b", ContainerPath := "/dev/thermo",
                              Permissions := "rw" }] }] := by
  decide

end DevicePlugin
